import Mathlib

/-!
Verification of the HotDogCCS stand-management system.

Python dictionaries are modelled as insertion-ordered association lists
`List (String × α)` with unique keys: `dictGet` is `dict.get`, `dictSet` is
`d[k] = v` (update in place if the key exists, append otherwise), and
iteration order is list order, matching CPython's insertion-ordered dicts.
`collections.Counter` is the same with `Nat` values.  Randomness is modelled
as an injected stream of natural-number draws (`List Nat`), each draw reduced
modulo the needed range; the simulation consumes draws exactly where the
source calls the `random` module.
-/

namespace HotDogCCS

/-- Python `d.get(k)`: first value bound to `k`, if any. -/
def dictGet {α : Type} (l : List (String × α)) (k : String) : Option α :=
  match l with
  | [] => none
  | (k0, v0) :: rest => if k0 = k then some v0 else dictGet rest k

/-- Python `d[k] = v`: replace in place when the key exists, append otherwise. -/
def dictSet {α : Type} (l : List (String × α)) (k : String) (v : α) :
    List (String × α) :=
  match l with
  | [] => [(k, v)]
  | (k0, v0) :: rest =>
      if k0 = k then (k0, v) :: rest else (k0, v0) :: dictSet rest k v

/-- Counter update `c[k] += n`: bump in place, or insert `(k, n)` at the end. -/
def counterAdd (l : List (String × Nat)) (k : String) (n : Nat) :
    List (String × Nat) :=
  match l with
  | [] => [(k, n)]
  | (k0, v0) :: rest =>
      if k0 = k then (k0, v0 + n) :: rest else (k0, v0) :: counterAdd rest k n

/-- models.Ingredient. -/
structure Ingredient where
  id : String
  name : String
  category : String
  type : String
  length : Option String := none
deriving DecidableEq, Repr

/-- models.HotDog (a menu item). -/
structure HotDog where
  id : String
  name : String
  pan_id : String
  salchicha_id : String
  topping_ids : List String := []
  salsa_ids : List String := []
  acompanante_id : Option String := none
deriving DecidableEq, Repr

/-- Python truthiness of an `Optional[str]` field: `None` and `""` are falsy. -/
def optTruthy : Option String → Bool
  | none => false
  | some s => s ≠ ""

/-- models.HotDog.get_all_ingredient_ids. -/
def HotDog.get_all_ingredient_ids (hd : HotDog) : List String :=
  [hd.pan_id, hd.salchicha_id] ++ hd.topping_ids ++ hd.salsa_ids ++
    (match hd.acompanante_id with
     | some s => if s ≠ "" then [s] else []
     | none => [])

/-- models.SalesDay. -/
structure SalesDay where
  date : String
  clients_changed_opinion : Nat := 0
  clients_could_not_buy : Nat := 0
  total_clients : Nat := 0
  total_hotdogs_sold : Nat := 0
  best_selling_hotdog : String := ""
  hotdogs_causing_loss : List String := []
  ingredients_causing_loss : List String := []
  total_sides_sold : Int := 0
deriving DecidableEq, Repr

/-- One entry of the `missing` list built by `check_multiple_availability`. -/
structure Shortage where
  id : String
  name : String
  required : Int
  available : Int
deriving DecidableEq, Repr

/-- The process-wide data store (`DataManager.data`). -/
structure DataStore where
  ingredients : List (String × Ingredient) := []
  hotdogs : List (String × HotDog) := []
  inventory : List (String × Int) := []
  sales_history : List SalesDay := []
deriving DecidableEq, Repr

/-- InventoryManager.get_quantity: stored value, 0 when the id is unknown. -/
def get_quantity (inv : List (String × Int)) (ingredient_id : String) : Int :=
  (dictGet inv ingredient_id).getD 0

/-- InventoryManager.update_quantity / DataManager.update_inventory. -/
def update_quantity (inv : List (String × Int)) (ingredient_id : String)
    (quantity : Int) : List (String × Int) :=
  dictSet inv ingredient_id quantity

/-- InventoryManager.add_quantity: clamp the new quantity at zero. -/
def add_quantity (inv : List (String × Int)) (ingredient_id : String)
    (amount : Int) : List (String × Int) :=
  update_quantity inv ingredient_id (max 0 (get_quantity inv ingredient_id + amount))

/-- InventoryManager.check_availability. -/
def check_availability (inv : List (String × Int)) (ingredient_id : String)
    (required_amount : Int) : Bool :=
  get_quantity inv ingredient_id ≥ required_amount

/-- Name reported for a shortage: the ingredient's name when it exists in the
catalog, otherwise the raw id (`ingredient.name if ingredient else ing_id`). -/
def shortage_name (ings : List (String × Ingredient)) (ing_id : String) : String :=
  match dictGet ings ing_id with
  | some ingredient => ingredient.name
  | none => ing_id

/-- The shortage record appended for one failing requirement. -/
def mkShortage (ings : List (String × Ingredient)) (inv : List (String × Int))
    (ing_id : String) (required : Int) : Shortage :=
  { id := ing_id, name := shortage_name ings ing_id,
    required := required, available := get_quantity inv ing_id }

/-- InventoryManager.check_multiple_availability: collect every failing
requirement, return `(all_available, missing)`. -/
def check_multiple_availability (ings : List (String × Ingredient))
    (inv : List (String × Int)) (requirements : List (String × Int)) :
    Bool × List Shortage :=
  let missing := requirements.foldl
    (fun acc p =>
      if check_availability inv p.1 p.2 then acc
      else acc ++ [mkShortage ings inv p.1 p.2]) []
  (missing.isEmpty, missing)

/-- InventoryManager.consume_ingredients: check first; on success subtract
every requirement, otherwise leave the inventory untouched. -/
def consume_ingredients (ings : List (String × Ingredient))
    (inv : List (String × Int)) (requirements : List (String × Int)) :
    Bool × List (String × Int) :=
  let checked := check_multiple_availability ings inv requirements
  if checked.1 then
    (true, requirements.foldl (fun i p => add_quantity i p.1 (-p.2)) inv)
  else
    (false, inv)

/-- Name resolution in MenuManager.display_hotdog_details:
`ingredient.name if ingredient else "Unknown"`. -/
def display_name (ings : List (String × Ingredient)) (ing_id : String) : String :=
  match dictGet ings ing_id with
  | some ingredient => ingredient.name
  | none => "Unknown"

/-! ## Random stream -/

/-- Pull the next draw off the injected stream (0 when exhausted). -/
def nextNat (σ : List Nat) : Nat × List Nat :=
  match σ with
  | [] => (0, [])
  | d :: rest => (d, rest)

/-- random.randint(lo, hi): one draw, reduced into `[lo, hi]`. -/
def randint (lo hi : Nat) (σ : List Nat) : Nat × List Nat :=
  (lo + (nextNat σ).1 % (hi - lo + 1), (nextNat σ).2)

/-- random.random() < 0.3: one draw, three residues in ten succeed, so an
injected stream can force either branch. -/
def randLt30 (σ : List Nat) : Bool × List Nat :=
  ((nextNat σ).1 % 10 < 3, (nextNat σ).2)

/-- random.choice over a list: one draw indexes the list modulo its length
(the source only calls it on non-empty lists; the default pads the type). -/
def randChoice {α : Type} [Inhabited α] (l : List α) (d : Nat) : α :=
  (l.get? (d % l.length)).getD default

instance : Inhabited Ingredient :=
  ⟨{ id := "", name := "", category := "", type := "" }⟩

instance : Inhabited HotDog :=
  ⟨{ id := "", name := "", pan_id := "", salchicha_id := "" }⟩

/-! ## Sales simulation -/

/-- Mutable locals of SalesSimulation.simulate_day's per-client loop. -/
structure SimState where
  inventory : List (String × Int)
  clients_changed_opinion : Nat := 0
  clients_could_not_buy : Nat := 0
  clients_served : Nat := 0
  total_hotdogs_sold : Nat := 0
  hotdog_sales_counter : List (String × Nat) := []
  hotdogs_causing_loss : List String := []
  ingredients_causing_loss : List String := []
  total_sides_sold : Int := 0
deriving DecidableEq, Repr

/-- Order-building loop: `num_hotdogs` times pick a random hot dog, add its
ingredients to the requirement counter, and with the 30% draw add one unit of
a random side (the probability draw is consumed even when no sides exist). -/
def buildOrder (hotdogs : List HotDog) (sides : List Ingredient) :
    Nat → List HotDog → List (String × Nat) → List Nat →
    List HotDog × List (String × Nat) × List Nat
  | 0, order, reqs, σ => (order, reqs, σ)
  | n + 1, order, reqs, σ =>
      let hotdog := randChoice hotdogs (nextNat σ).1
      let σ1 := (nextNat σ).2
      let order1 := order ++ [hotdog]
      let reqs1 := hotdog.get_all_ingredient_ids.foldl
        (fun r ing_id => counterAdd r ing_id 1) reqs
      let σ2 := (randLt30 σ1).2
      if (randLt30 σ1).1 then
        if sides.isEmpty then
          buildOrder hotdogs sides n order1 reqs1 σ2
        else
          let extra_side := randChoice sides (nextNat σ2).1
          buildOrder hotdogs sides n order1
            (counterAdd reqs1 extra_side.id 1) (nextNat σ2).2
      else
        buildOrder hotdogs sides n order1 reqs1 σ2

/-- Count `sum(1 for hd in order if hd.acompañante_id == ing_id)`. -/
def comboSides (order : List HotDog) (ing_id : String) : Nat :=
  (order.filter (fun hd => hd.acompanante_id = some ing_id)).length

/-- The two side-counting loops of the fulfilled branch: one bundled side per
item whose `acompañante_id` is truthy, then for every Side-category
requirement the count minus the bundled contribution. -/
def count_sides (ings : List (String × Ingredient)) (order : List HotDog)
    (reqs : List (String × Nat)) (total0 : Int) : Int :=
  let bundled := order.foldl
    (fun t hd => if optTruthy hd.acompanante_id then t + 1 else t) total0
  reqs.foldl
    (fun t p =>
      match dictGet ings p.1 with
      | some ing =>
          if ing.category = "Acompañante" then
            t + ((p.2 : Int) - (comboSides order p.1 : Int))
          else t
      | none => t) bundled

/-- Append `x` when it is not present yet (the dedup pattern of the loss
lists). -/
def appendUnique (l : List String) (x : String) : List String :=
  if x ∈ l then l else l ++ [x]

/-- Requirements handed to the inventory manager: `dict(order_requirements)`. -/
def reqsToInt (reqs : List (String × Nat)) : List (String × Int) :=
  reqs.map (fun p => (p.1, (p.2 : Int)))

/-- The per-item sale bookkeeping of the fulfilled branch: bump the item's
counter and `total_hotdogs_sold` once per item of the order. -/
def salesFold (order : List HotDog) (counter : List (String × Nat)) (total : Nat) :
    List (String × Nat) × Nat :=
  order.foldl (fun acc hd => (counterAdd acc.1 hd.name 1, acc.2 + 1)) (counter, total)

/-- One iteration of the per-client loop. -/
def processClient (ings : List (String × Ingredient)) (hotdogs : List HotDog)
    (sides : List Ingredient) (st : SimState) (σ : List Nat) :
    SimState × List Nat :=
  let num_hotdogs := (randint 0 5 σ).1
  let σ1 := (randint 0 5 σ).2
  if num_hotdogs = 0 then
    ({ st with clients_changed_opinion := st.clients_changed_opinion + 1 }, σ1)
  else
    let bo := buildOrder hotdogs sides num_hotdogs [] [] σ1
    let order := bo.1
    let reqs := bo.2.1
    let σ2 := bo.2.2
    let checked := check_multiple_availability ings st.inventory (reqsToInt reqs)
    if checked.1 then
      let sold := salesFold order st.hotdog_sales_counter st.total_hotdogs_sold
      let sides_total := count_sides ings order reqs st.total_sides_sold
      let consumed := consume_ingredients ings st.inventory (reqsToInt reqs)
      ({ st with
          inventory := consumed.2
          clients_served := st.clients_served + 1
          total_hotdogs_sold := sold.2
          hotdog_sales_counter := sold.1
          total_sides_sold := sides_total }, σ2)
    else
      let ing_loss := checked.2.foldl
        (fun l item => appendUnique l item.name) st.ingredients_causing_loss
      let hd_loss := order.foldl
        (fun l hd => appendUnique l hd.name) st.hotdogs_causing_loss
      ({ st with
          clients_could_not_buy := st.clients_could_not_buy + 1
          ingredients_causing_loss := ing_loss
          hotdogs_causing_loss := hd_loss }, σ2)

/-- The per-client loop, by number of remaining clients. -/
def runClients (ings : List (String × Ingredient)) (hotdogs : List HotDog)
    (sides : List Ingredient) :
    Nat → SimState → List Nat → SimState × List Nat
  | 0, st, σ => (st, σ)
  | n + 1, st, σ =>
      let next := processClient ings hotdogs sides st σ
      runClients ings hotdogs sides n next.1 next.2

/-- Counter.most_common(1)[0][0]: the earliest-inserted key holding the
largest count (later keys only displace the best on a strictly larger
count). -/
def mostCommon1 (c : List (String × Nat)) : String :=
  match c with
  | [] => ""
  | p :: rest => (rest.foldl (fun best q => if q.2 > best.2 then q else best) p).1

/-- All of `list(ingredients.values())` filtered to the Side category. -/
def sidesOf (ings : List (String × Ingredient)) : List Ingredient :=
  (ings.map Prod.snd).filter (fun ing => ing.category = "Acompañante")

/-- Draw the client count and run the whole per-client loop; returns the
drawn `num_clients` and the final loop state. -/
def simulate_run (store : DataStore) (σ : List Nat) : Nat × SimState :=
  let num_clients := (randint 0 200 σ).1
  let final := runClients store.ingredients (store.hotdogs.map Prod.snd)
    (sidesOf store.ingredients) num_clients { inventory := store.inventory }
    (randint 0 200 σ).2
  (num_clients, final.1)

/-- The SalesDay assembled at end of day from the loop state. -/
def mkSalesDay (date : String) (num_clients : Nat) (st : SimState) : SalesDay :=
  { date := date
    clients_changed_opinion := st.clients_changed_opinion
    clients_could_not_buy := st.clients_could_not_buy
    total_clients := num_clients
    total_hotdogs_sold := st.total_hotdogs_sold
    best_selling_hotdog := mostCommon1 st.hotdog_sales_counter
    hotdogs_causing_loss := st.hotdogs_causing_loss
    ingredients_causing_loss := st.ingredients_causing_loss
    total_sides_sold := st.total_sides_sold }

/-- SalesSimulation.simulate_day.  The random stream and the timestamp are
injected inputs; the result is the produced record (none on the empty-menu
abort) together with the updated store. -/
def simulate_day (store : DataStore) (σ : List Nat) (date : String) :
    Option SalesDay × DataStore :=
  if (store.hotdogs.map Prod.snd).isEmpty then
    (none, store)
  else
    let run := simulate_run store σ
    let record := mkSalesDay date run.1 run.2
    (some record,
      { store with
          inventory := run.2.inventory
          sales_history := store.sales_history ++ [record] })

/-! ## Further definitions used only by the specification side -/

/-- Total number of sales recorded in a counter. -/
def counterSum (c : List (String × Nat)) : Nat :=
  (c.map Prod.snd).sum

/-- The largest count appearing in a counter (0 when empty). -/
def maxCount (c : List (String × Nat)) : Nat :=
  (c.map Prod.snd).foldr max 0

/-- Modelled from the spec's words for the best-seller rule: the name of the
first entry, in the counter's insertion order, whose count equals the
maximum; the empty string when there are no sales.  Compared against the
source-side `mostCommon1`. -/
def bestSellerSpec (c : List (String × Nat)) : String :=
  match c.find? (fun p => p.2 == maxCount c) with
  | some p => p.1
  | none => ""

/-- Truthiness test `ing and ing.category == 'Acompañante'`: the requirement
id resolves to an existing Side-category ingredient. -/
def isSide (ings : List (String × Ingredient)) (ing_id : String) : Bool :=
  match dictGet ings ing_id with
  | some ing => ing.category = "Acompañante"
  | none => false

/-- Concrete fixture: a menu item for witness instances. -/
def wHotdog : HotDog :=
  { id := "h1", name := "Clasico", pan_id := "p", salchicha_id := "s" }

/-- Concrete fixture: a small populated store for witness instances. -/
def wStore : DataStore :=
  { ingredients :=
      [("p", { id := "p", name := "Pan", category := "Pan", type := "normal" }),
       ("s", { id := "s", name := "Salchicha", category := "Salchicha",
               type := "normal" })]
    hotdogs := [("h1", wHotdog)]
    inventory := [("p", 10), ("s", 10)]
    sales_history := [] }

/-- Concrete fixture: the empty store. -/
def wEmptyStore : DataStore := {}

/-! ## Dictionary and ledger lemmas -/

theorem dictGet_dictSet {α : Type} (l : List (String × α)) (k k' : String) (v : α) :
    dictGet (dictSet l k v) k' = if k = k' then some v else dictGet l k' := by
  induction l with
  | nil => by_cases h : k = k' <;> simp [dictSet, dictGet, h]
  | cons p rest ih =>
      obtain ⟨k0, v0⟩ := p
      by_cases h0 : k0 = k
      · subst h0
        by_cases h : k0 = k' <;> simp [dictSet, dictGet, h]
      · by_cases h : k0 = k' <;> by_cases h' : k = k' <;>
          simp_all [dictSet, dictGet]

theorem get_quantity_update (inv : List (String × Int)) (k k' : String) (q : Int) :
    get_quantity (update_quantity inv k q) k' =
      if k = k' then q else get_quantity inv k' := by
  by_cases h : k = k' <;>
    simp [get_quantity, update_quantity, dictGet_dictSet, h]

theorem get_quantity_add (inv : List (String × Int)) (k k' : String) (a : Int) :
    get_quantity (add_quantity inv k a) k' =
      if k = k' then max 0 (get_quantity inv k + a) else get_quantity inv k' := by
  simp [add_quantity, get_quantity_update]

theorem foldl_collect {α β : Type} (c : α → Bool) (f : α → β) :
    ∀ (l : List α) (acc : List β),
      l.foldl (fun a p => if c p then a else a ++ [f p]) acc
        = acc ++ (l.filter (fun p => !c p)).map f
  | [], acc => by simp
  | p :: l, acc => by
      by_cases h : c p <;>
        simp [h, foldl_collect c f l, List.filter_cons]

theorem check_multiple_availability_snd (ings : List (String × Ingredient))
    (inv : List (String × Int)) (reqs : List (String × Int)) :
    (check_multiple_availability ings inv reqs).2
      = (reqs.filter (fun p => !check_availability inv p.1 p.2)).map
          (fun p => mkShortage ings inv p.1 p.2) := by
  simp [check_multiple_availability, foldl_collect]

theorem check_multiple_availability_fst (ings : List (String × Ingredient))
    (inv : List (String × Int)) (reqs : List (String × Int)) :
    (check_multiple_availability ings inv reqs).1 = true ↔
      ∀ p ∈ reqs, p.2 ≤ get_quantity inv p.1 := by
  have h2 := check_multiple_availability_snd ings inv reqs
  simp only [check_multiple_availability] at h2 ⊢
  rw [List.isEmpty_iff, h2]
  simp [List.filter_eq_nil_iff, check_availability]

theorem consume_fold_not_mem (reqs : List (String × Int)) :
    ∀ (inv : List (String × Int)) (k : String), k ∉ reqs.map Prod.fst →
      get_quantity (reqs.foldl (fun i p => add_quantity i p.1 (-p.2)) inv) k
        = get_quantity inv k := by
  induction reqs with
  | nil => intro inv k _; rfl
  | cons p l ih =>
      intro inv k hk
      simp only [List.map_cons, List.mem_cons, not_or] at hk
      rw [List.foldl_cons, ih _ k hk.2, get_quantity_add, if_neg]
      intro h
      exact hk.1 h.symm

theorem consume_fold_mem (reqs : List (String × Int)) :
    ∀ (inv : List (String × Int)) (k : String) (v : Int), (k, v) ∈ reqs →
      (reqs.map Prod.fst).Nodup →
      get_quantity (reqs.foldl (fun i p => add_quantity i p.1 (-p.2)) inv) k
        = max 0 (get_quantity inv k - v) := by
  induction reqs with
  | nil => intro inv k v hm _; cases hm
  | cons p l ih =>
      intro inv k v hm hnd
      simp only [List.map_cons, List.nodup_cons] at hnd
      rcases List.mem_cons.mp hm with he | hl
      · have hk : p.1 = k := by rw [← he]
        have hknot : k ∉ l.map Prod.fst := by rw [← hk]; exact hnd.1
        rw [List.foldl_cons, consume_fold_not_mem l _ k hknot,
          get_quantity_add, if_pos hk, hk]
        have hv : p.2 = v := by rw [← he]
        rw [hv, sub_eq_add_neg]
      · have hk : p.1 ≠ k := by
          intro h
          exact hnd.1 (h ▸ List.mem_map_of_mem Prod.fst hl)
        rw [List.foldl_cons, ih _ k v hl hnd.2, get_quantity_add, if_neg hk]

/-- Sound summary of consume_ingredients, shared by several claims: on
failure the ledger is untouched; on success every requirement is decremented
exactly and everything else is untouched. -/
theorem consume_ingredients_spec (ings : List (String × Ingredient))
    (inv : List (String × Int)) (reqs : List (String × Int))
    (hnd : (reqs.map Prod.fst).Nodup) :
    ((consume_ingredients ings inv reqs).1 = false →
        (consume_ingredients ings inv reqs).2 = inv)
    ∧ ((consume_ingredients ings inv reqs).1 = true →
        (∀ p ∈ reqs, get_quantity (consume_ingredients ings inv reqs).2 p.1
            = get_quantity inv p.1 - p.2)
        ∧ ∀ k, k ∉ reqs.map Prod.fst →
            get_quantity (consume_ingredients ings inv reqs).2 k
              = get_quantity inv k) := by
  by_cases h : (check_multiple_availability ings inv reqs).1 = true
  · have hok := (check_multiple_availability_fst ings inv reqs).mp h
    have hdef : consume_ingredients ings inv reqs
        = (true, reqs.foldl (fun i p => add_quantity i p.1 (-p.2)) inv) := by
      simp [consume_ingredients, h]
    rw [hdef]
    refine ⟨?_, fun _ => ⟨?_, ?_⟩⟩
    · intro hf; cases hf
    · intro p hp
      have hm := consume_fold_mem reqs inv p.1 p.2 hp hnd
      simp only at hm
      rw [hm, max_eq_right]
      have := hok p hp
      omega
    · intro k hk
      exact consume_fold_not_mem reqs inv k hk
  · rw [Bool.not_eq_true] at h
    have hdef : consume_ingredients ings inv reqs = (false, inv) := by
      simp [consume_ingredients, h]
    rw [hdef]
    exact ⟨fun _ => rfl, by intro ht; cases ht⟩

theorem add_quantity_fold_nonneg (calls : List (String × Int)) :
    ∀ (inv : List (String × Int)), (∀ k, 0 ≤ get_quantity inv k) →
      ∀ k, 0 ≤ get_quantity
        (calls.foldl (fun i c => add_quantity i c.1 c.2) inv) k := by
  induction calls with
  | nil => intro inv h k; exact h k
  | cons c l ih =>
      intro inv h k
      rw [List.foldl_cons]
      refine ih _ ?_ k
      intro k'
      rw [get_quantity_add]
      split
      · exact le_max_left _ _
      · exact h k'

/-! ## Counter and order-building lemmas -/

theorem counterAdd_sum (c : List (String × Nat)) (k : String) (n : Nat) :
    counterSum (counterAdd c k n) = counterSum c + n := by
  induction c with
  | nil => simp [counterAdd, counterSum]
  | cons p rest ih =>
      by_cases h : p.1 = k <;>
        simp [counterAdd, h, counterSum, List.sum_cons] at ih ⊢ <;> omega

theorem counterAdd_keys_mem (c : List (String × Nat)) (k x : String) (n : Nat) :
    x ∈ (counterAdd c k n).map Prod.fst ↔ x ∈ c.map Prod.fst ∨ x = k := by
  induction c with
  | nil => simp [counterAdd]
  | cons p rest ih =>
      by_cases h : p.1 = k
      · simp [counterAdd, h]
        intro hx
        exact Or.inl (h ▸ hx)
      · simp [counterAdd, h, ih]
        tauto

theorem counterAdd_keys_nodup (c : List (String × Nat)) (k : String) (n : Nat)
    (hnd : (c.map Prod.fst).Nodup) :
    ((counterAdd c k n).map Prod.fst).Nodup := by
  induction c with
  | nil => simp [counterAdd]
  | cons p rest ih =>
      simp only [List.map_cons, List.nodup_cons] at hnd
      by_cases h : p.1 = k
      · simp only [counterAdd, h, if_true, List.map_cons, List.nodup_cons]
        exact ⟨h ▸ hnd.1, hnd.2⟩
      · simp only [counterAdd, h, if_false, List.map_cons, List.nodup_cons]
        refine ⟨?_, ih hnd.2⟩
        rw [counterAdd_keys_mem]
        push_neg
        exact ⟨hnd.1, h⟩

theorem counterAdd_fold_nodup (ids : List String) :
    ∀ (c : List (String × Nat)), (c.map Prod.fst).Nodup →
      ((ids.foldl (fun r i => counterAdd r i 1) c).map Prod.fst).Nodup := by
  induction ids with
  | nil => intro c h; exact h
  | cons i rest ih =>
      intro c h
      exact ih _ (counterAdd_keys_nodup c i 1 h)

theorem buildOrder_reqs_nodup (hotdogs : List HotDog) (sides : List Ingredient) :
    ∀ (n : Nat) (order : List HotDog) (reqs : List (String × Nat)) (σ : List Nat),
      (reqs.map Prod.fst).Nodup →
      (((buildOrder hotdogs sides n order reqs σ).2.1).map Prod.fst).Nodup := by
  intro n
  induction n with
  | zero => intro order reqs σ h; exact h
  | succ m ih =>
      intro order reqs σ h
      simp only [buildOrder]
      have h1 := counterAdd_fold_nodup
        (randChoice hotdogs (nextNat σ).1).get_all_ingredient_ids reqs h
      split
      · split
        · exact ih _ _ _ h1
        · exact ih _ _ _ (counterAdd_keys_nodup _ _ 1 h1)
      · exact ih _ _ _ h1

theorem reqsToInt_keys (reqs : List (String × Nat)) :
    (reqsToInt reqs).map Prod.fst = reqs.map Prod.fst := by
  simp [reqsToInt]

theorem reqsToInt_nonneg (reqs : List (String × Nat)) :
    ∀ p ∈ reqsToInt reqs, 0 ≤ p.2 := by
  intro p hp
  simp only [reqsToInt, List.mem_map] at hp
  obtain ⟨q, _, hq⟩ := hp
  rw [← hq]
  exact Int.ofNat_nonneg q.2

/-- consume_ingredients never increases any quantity when every requirement
is non-negative and the requirement keys are unique. -/
theorem consume_ingredients_le (ings : List (String × Ingredient))
    (inv : List (String × Int)) (reqs : List (String × Int))
    (hnd : (reqs.map Prod.fst).Nodup) (hpos : ∀ p ∈ reqs, 0 ≤ p.2) :
    ∀ k, get_quantity (consume_ingredients ings inv reqs).2 k
      ≤ get_quantity inv k := by
  intro k
  obtain ⟨hfail, hsucc⟩ := consume_ingredients_spec ings inv reqs hnd
  by_cases hc : (consume_ingredients ings inv reqs).1 = true
  · obtain ⟨hin, hout⟩ := hsucc hc
    by_cases hk : k ∈ reqs.map Prod.fst
    · obtain ⟨p, hp, hpk⟩ := List.mem_map.mp hk
      have := hin p hp
      rw [hpk] at this
      rw [this]
      have := hpos p hp
      omega
    · rw [hout k hk]
  · rw [Bool.not_eq_true] at hc
    rw [hfail hc]

/-! ## Per-client loop lemmas -/

theorem salesFold_spec (order : List HotDog) :
    ∀ (c : List (String × Nat)) (t : Nat),
      (salesFold order c t).2 = t + order.length
      ∧ counterSum (salesFold order c t).1 = counterSum c + order.length := by
  induction order with
  | nil => intro c t; simp [salesFold]
  | cons hd rest ih =>
      intro c t
      have hstep : salesFold (hd :: rest) c t
          = salesFold rest (counterAdd c hd.name 1) (t + 1) := rfl
      rw [hstep]
      obtain ⟨h1, h2⟩ := ih (counterAdd c hd.name 1) (t + 1)
      refine ⟨by rw [h1]; simp; omega, ?_⟩
      rw [h2, counterAdd_sum]
      simp
      omega

/-- Exactly one of the three client outcomes happens, with the exact field
updates of each branch. -/
theorem processClient_cases (ings : List (String × Ingredient))
    (hotdogs : List HotDog) (sides : List Ingredient) (st : SimState)
    (σ : List Nat) :
    (processClient ings hotdogs sides st σ).1
        = { st with clients_changed_opinion := st.clients_changed_opinion + 1 }
    ∨ (∃ order reqs, ((reqs : List (String × Nat)).map Prod.fst).Nodup ∧
        (processClient ings hotdogs sides st σ).1
          = { st with
              inventory :=
                (consume_ingredients ings st.inventory (reqsToInt reqs)).2
              clients_served := st.clients_served + 1
              total_hotdogs_sold :=
                (salesFold order st.hotdog_sales_counter st.total_hotdogs_sold).2
              hotdog_sales_counter :=
                (salesFold order st.hotdog_sales_counter st.total_hotdogs_sold).1
              total_sides_sold :=
                count_sides ings order reqs st.total_sides_sold })
    ∨ (∃ il hl, (processClient ings hotdogs sides st σ).1
          = { st with
              clients_could_not_buy := st.clients_could_not_buy + 1
              ingredients_causing_loss := il
              hotdogs_causing_loss := hl }) := by
  by_cases h0 : (randint 0 5 σ).1 = 0
  · left
    simp [processClient, h0]
  · by_cases hc : (check_multiple_availability ings st.inventory
        (reqsToInt (buildOrder hotdogs sides (randint 0 5 σ).1 [] []
          (randint 0 5 σ).2).2.1)).1 = true
    · right; left
      refine ⟨(buildOrder hotdogs sides (randint 0 5 σ).1 [] []
          (randint 0 5 σ).2).1,
        (buildOrder hotdogs sides (randint 0 5 σ).1 [] []
          (randint 0 5 σ).2).2.1, ?_, ?_⟩
      · exact buildOrder_reqs_nodup hotdogs sides _ [] [] _ (by simp)
      · simp [processClient, h0, hc]
    · right; right
      rw [Bool.not_eq_true] at hc
      refine ⟨(check_multiple_availability ings st.inventory
          (reqsToInt (buildOrder hotdogs sides (randint 0 5 σ).1 [] []
            (randint 0 5 σ).2).2.1)).2.foldl
          (fun l item => appendUnique l item.name) st.ingredients_causing_loss,
        (buildOrder hotdogs sides (randint 0 5 σ).1 [] []
          (randint 0 5 σ).2).1.foldl
          (fun l hd => appendUnique l hd.name) st.hotdogs_causing_loss, ?_⟩
      simp [processClient, h0, hc]

theorem processClient_sum (ings : List (String × Ingredient))
    (hotdogs : List HotDog) (sides : List Ingredient) (st : SimState)
    (σ : List Nat) :
    (processClient ings hotdogs sides st σ).1.clients_served
      + (processClient ings hotdogs sides st σ).1.clients_could_not_buy
      + (processClient ings hotdogs sides st σ).1.clients_changed_opinion
      = st.clients_served + st.clients_could_not_buy
        + st.clients_changed_opinion + 1 := by
  rcases processClient_cases ings hotdogs sides st σ with
    h | ⟨o, r, _, h⟩ | ⟨il, hl, h⟩ <;> rw [h] <;> simp <;> omega

theorem processClient_sold (ings : List (String × Ingredient))
    (hotdogs : List HotDog) (sides : List Ingredient) (st : SimState)
    (σ : List Nat)
    (hinv : st.total_hotdogs_sold = counterSum st.hotdog_sales_counter) :
    (processClient ings hotdogs sides st σ).1.total_hotdogs_sold
      = counterSum (processClient ings hotdogs sides st σ).1.hotdog_sales_counter := by
  rcases processClient_cases ings hotdogs sides st σ with
    h | ⟨o, r, _, h⟩ | ⟨il, hl, h⟩ <;> rw [h]
  · exact hinv
  · obtain ⟨h1, h2⟩ := salesFold_spec o st.hotdog_sales_counter st.total_hotdogs_sold
    show (salesFold o st.hotdog_sales_counter st.total_hotdogs_sold).2
        = counterSum (salesFold o st.hotdog_sales_counter st.total_hotdogs_sold).1
    rw [h1, h2, hinv]
  · exact hinv

theorem processClient_inventory_le (ings : List (String × Ingredient))
    (hotdogs : List HotDog) (sides : List Ingredient) (st : SimState)
    (σ : List Nat) :
    ∀ k, get_quantity (processClient ings hotdogs sides st σ).1.inventory k
      ≤ get_quantity st.inventory k := by
  intro k
  rcases processClient_cases ings hotdogs sides st σ with
    h | ⟨o, r, hnd, h⟩ | ⟨il, hl, h⟩ <;> rw [h]
  exact consume_ingredients_le ings st.inventory (reqsToInt r)
    (by rw [reqsToInt_keys]; exact hnd) (reqsToInt_nonneg r) k

theorem runClients_sum (ings : List (String × Ingredient))
    (hotdogs : List HotDog) (sides : List Ingredient) :
    ∀ (n : Nat) (st : SimState) (σ : List Nat),
      (runClients ings hotdogs sides n st σ).1.clients_served
        + (runClients ings hotdogs sides n st σ).1.clients_could_not_buy
        + (runClients ings hotdogs sides n st σ).1.clients_changed_opinion
        = st.clients_served + st.clients_could_not_buy
          + st.clients_changed_opinion + n := by
  intro n
  induction n with
  | zero => intro st σ; rfl
  | succ m ih =>
      intro st σ
      have hstep : runClients ings hotdogs sides (m + 1) st σ
          = runClients ings hotdogs sides m
              (processClient ings hotdogs sides st σ).1
              (processClient ings hotdogs sides st σ).2 := rfl
      rw [hstep, ih]
      have := processClient_sum ings hotdogs sides st σ
      omega

theorem runClients_sold (ings : List (String × Ingredient))
    (hotdogs : List HotDog) (sides : List Ingredient) :
    ∀ (n : Nat) (st : SimState) (σ : List Nat),
      st.total_hotdogs_sold = counterSum st.hotdog_sales_counter →
      (runClients ings hotdogs sides n st σ).1.total_hotdogs_sold
        = counterSum (runClients ings hotdogs sides n st σ).1.hotdog_sales_counter := by
  intro n
  induction n with
  | zero => intro st σ h; exact h
  | succ m ih =>
      intro st σ h
      have hstep : runClients ings hotdogs sides (m + 1) st σ
          = runClients ings hotdogs sides m
              (processClient ings hotdogs sides st σ).1
              (processClient ings hotdogs sides st σ).2 := rfl
      rw [hstep]
      exact ih _ _ (processClient_sold ings hotdogs sides st σ h)

theorem runClients_inventory_le (ings : List (String × Ingredient))
    (hotdogs : List HotDog) (sides : List Ingredient) :
    ∀ (n : Nat) (st : SimState) (σ : List Nat) (k : String),
      get_quantity (runClients ings hotdogs sides n st σ).1.inventory k
        ≤ get_quantity st.inventory k := by
  intro n
  induction n with
  | zero => intro st σ k; exact le_refl _
  | succ m ih =>
      intro st σ k
      have hstep : runClients ings hotdogs sides (m + 1) st σ
          = runClients ings hotdogs sides m
              (processClient ings hotdogs sides st σ).1
              (processClient ings hotdogs sides st σ).2 := rfl
      rw [hstep]
      exact le_trans (ih _ _ k) (processClient_inventory_le ings hotdogs sides st σ k)

/-! ## Best-seller lemmas -/

theorem maxCount_cons (p : String × Nat) (l : List (String × Nat)) :
    maxCount (p :: l) = max p.2 (maxCount l) := rfl

theorem exists_maxCount :
    ∀ (c : List (String × Nat)), c ≠ [] → ∃ q ∈ c, q.2 = maxCount c := by
  intro c
  induction c with
  | nil => intro h; cases h rfl
  | cons p rest ih =>
      intro _
      by_cases hr : rest = []
      · subst hr
        refine ⟨p, List.mem_cons_self p [], ?_⟩
        rw [maxCount_cons]
        simp [maxCount]
      · obtain ⟨q, hq, hq2⟩ := ih hr
        by_cases hle : maxCount rest ≤ p.2
        · exact ⟨p, List.mem_cons_self p rest, by rw [maxCount_cons]; omega⟩
        · exact ⟨q, List.mem_cons_of_mem p hq, by rw [maxCount_cons]; omega⟩

theorem find?_maxCount_some (c : List (String × Nat)) (hne : c ≠ []) :
    ∃ w, c.find? (fun x => x.2 == maxCount c) = some w := by
  obtain ⟨z, hz, hz2⟩ := exists_maxCount c hne
  refine Option.isSome_iff_exists.mp ?_
  rw [List.find?_isSome]
  exact ⟨z, hz, by simp [hz2]⟩

theorem foldBest_eq (l : List (String × Nat)) :
    ∀ b : String × Nat,
      l.foldl (fun best q => if q.2 > best.2 then q else best) b
        = ((b :: l).find? (fun x => x.2 == maxCount (b :: l))).getD b := by
  induction l with
  | nil =>
      intro b
      have hm : maxCount [b] = b.2 := by
        rw [maxCount_cons]
        simp [maxCount]
      rw [List.foldl_nil, hm, List.find?_cons_of_pos _ (by simp)]
      rfl
  | cons q rest ih =>
      intro b
      rw [List.foldl_cons]
      by_cases hq : q.2 > b.2
      · rw [if_pos hq, ih q]
        have hM : maxCount (b :: q :: rest) = maxCount (q :: rest) := by
          rw [maxCount_cons, maxCount_cons]
          omega
        rw [hM]
        have hb : ¬((fun x : String × Nat => x.2 == maxCount (q :: rest)) b = true) := by
          simp only [beq_iff_eq]
          rw [maxCount_cons]
          omega
        have hstep : List.find? (fun x : String × Nat => x.2 == maxCount (q :: rest))
              (b :: q :: rest)
            = List.find? (fun x : String × Nat => x.2 == maxCount (q :: rest))
              (q :: rest) :=
          @List.find?_cons_of_neg _ (fun x : String × Nat => x.2 == maxCount (q :: rest))
            b (q :: rest) hb
        rw [hstep]
        obtain ⟨w, hw⟩ := find?_maxCount_some (q :: rest) (by simp)
        rw [hw]
        rfl
      · rw [if_neg hq, ih b]
        have hq' : q.2 ≤ b.2 := by omega
        have hM : maxCount (b :: q :: rest) = maxCount (b :: rest) := by
          simp only [maxCount_cons]
          omega
        rw [hM]
        by_cases hb : b.2 = maxCount (b :: rest)
        · have hpos : ((fun x : String × Nat => x.2 == maxCount (b :: rest)) b = true) := by
            simp [hb]
          have h1 : List.find? (fun x : String × Nat => x.2 == maxCount (b :: rest))
                (b :: rest) = some b :=
            @List.find?_cons_of_pos _
              (fun x : String × Nat => x.2 == maxCount (b :: rest)) b rest hpos
          have h2 : List.find? (fun x : String × Nat => x.2 == maxCount (b :: rest))
                (b :: q :: rest) = some b :=
            @List.find?_cons_of_pos _
              (fun x : String × Nat => x.2 == maxCount (b :: rest)) b (q :: rest) hpos
          rw [h1, h2]
        · have hbm : b.2 ≤ maxCount (b :: rest) := by
            rw [maxCount_cons]
            omega
          have hbf : ¬((fun x : String × Nat => x.2 == maxCount (b :: rest)) b = true) := by
            simp only [beq_iff_eq]
            exact hb
          have hqf : ¬((fun x : String × Nat => x.2 == maxCount (b :: rest)) q = true) := by
            simp only [beq_iff_eq]
            omega
          have h1 : List.find? (fun x : String × Nat => x.2 == maxCount (b :: rest))
                (b :: rest)
              = List.find? (fun x : String × Nat => x.2 == maxCount (b :: rest)) rest :=
            @List.find?_cons_of_neg _
              (fun x : String × Nat => x.2 == maxCount (b :: rest)) b rest hbf
          have h2 : List.find? (fun x : String × Nat => x.2 == maxCount (b :: rest))
                (b :: q :: rest)
              = List.find? (fun x : String × Nat => x.2 == maxCount (b :: rest))
                  (q :: rest) :=
            @List.find?_cons_of_neg _
              (fun x : String × Nat => x.2 == maxCount (b :: rest)) b (q :: rest) hbf
          have h3 : List.find? (fun x : String × Nat => x.2 == maxCount (b :: rest))
                (q :: rest)
              = List.find? (fun x : String × Nat => x.2 == maxCount (b :: rest)) rest :=
            @List.find?_cons_of_neg _
              (fun x : String × Nat => x.2 == maxCount (b :: rest)) q rest hqf
          rw [h1, h2, h3]

/-- mostCommon1 (the source's Counter.most_common(1) extraction) agrees with
the spec-side first-max rule on every counter. -/
theorem mostCommon1_eq_bestSellerSpec (c : List (String × Nat)) :
    mostCommon1 c = bestSellerSpec c := by
  cases c with
  | nil => rfl
  | cons p rest =>
      have h1 : mostCommon1 (p :: rest)
          = (rest.foldl (fun best q => if q.2 > best.2 then q else best) p).1 := rfl
      rw [h1, foldBest_eq rest p]
      obtain ⟨w, hw⟩ := find?_maxCount_some (p :: rest) (by simp)
      rw [bestSellerSpec, hw]
      rfl

/-! ## Side-counting lemmas -/

theorem foldl_count_truthy (order : List HotDog) :
    ∀ t : Int, order.foldl
        (fun t hd => if optTruthy hd.acompanante_id then t + 1 else t) t
      = t + ((order.filter (fun hd => optTruthy hd.acompanante_id)).length : Int) := by
  induction order with
  | nil => intro t; simp
  | cons hd rest ih =>
      intro t
      by_cases h : optTruthy hd.acompanante_id
      · simp [List.filter_cons, h, ih]
        omega
      · simp [List.filter_cons, h, ih]

theorem foldl_add_filtered (g : String × Nat → Int) (p : String × Nat → Bool)
    (l : List (String × Nat)) :
    ∀ t : Int, l.foldl (fun t x => if p x then t + g x else t) t
      = t + ((l.filter p).map g).sum := by
  induction l with
  | nil => intro t; simp
  | cons x rest ih =>
      intro t
      by_cases h : p x
      · simp [List.filter_cons, h, ih]
        omega
      · simp [List.filter_cons, h, ih]

/-! ## Claims about the inventory ledger -/

/-- C1: consume_ingredients is all-or-nothing: for every requirements
mapping (a dict, so keys are unique) and every ledger state it either
decrements every required id by exactly its required amount and returns
true, or leaves every quantity unchanged and returns false; no partial
consumption is observable. -/
theorem consume_all_or_nothing (ings : List (String × Ingredient))
    (inv : List (String × Int)) (req : List (String × Int))
    (hnd : (req.map Prod.fst).Nodup) :
    ((consume_ingredients ings inv req).1 = true →
        (∀ p ∈ req, get_quantity (consume_ingredients ings inv req).2 p.1
            = get_quantity inv p.1 - p.2)
        ∧ ∀ k, k ∉ req.map Prod.fst →
            get_quantity (consume_ingredients ings inv req).2 k
              = get_quantity inv k)
    ∧ ((consume_ingredients ings inv req).1 = false →
        ∀ k, get_quantity (consume_ingredients ings inv req).2 k
          = get_quantity inv k) := by
  obtain ⟨hfail, hsucc⟩ := consume_ingredients_spec ings inv req hnd
  refine ⟨hsucc, ?_⟩
  intro hf k
  rw [hfail hf]

theorem consume_all_or_nothing_witness :
    ((([("a", 2)] : List (String × Int)).map Prod.fst).Nodup)
    ∧ (((consume_ingredients [] [("a", 5)] [("a", 2)]).1 = true →
        (∀ p ∈ ([("a", 2)] : List (String × Int)),
            get_quantity (consume_ingredients [] [("a", 5)] [("a", 2)]).2 p.1
              = get_quantity [("a", 5)] p.1 - p.2)
        ∧ ∀ k, k ∉ ([("a", 2)] : List (String × Int)).map Prod.fst →
            get_quantity (consume_ingredients [] [("a", 5)] [("a", 2)]).2 k
              = get_quantity [("a", 5)] k)
    ∧ ((consume_ingredients [] [("a", 5)] [("a", 2)]).1 = false →
        ∀ k, get_quantity (consume_ingredients [] [("a", 5)] [("a", 2)]).2 k
          = get_quantity [("a", 5)] k)) :=
  ⟨by decide, consume_all_or_nothing [] [("a", 5)] [("a", 2)] (by decide)⟩

/-- C3: starting from a ledger with all quantities non-negative, any
sequence of add_quantity (adjust) calls keeps every quantity non-negative,
and a single adjust sets the quantity to max 0 (old + delta). -/
theorem adjust_clamped_nonneg (inv : List (String × Int))
    (calls : List (String × Int)) (h0 : ∀ k, 0 ≤ get_quantity inv k) :
    (∀ k, 0 ≤ get_quantity
        (calls.foldl (fun i c => add_quantity i c.1 c.2) inv) k)
    ∧ ∀ k δ, get_quantity (add_quantity inv k δ) k
        = max 0 (get_quantity inv k + δ) := by
  refine ⟨add_quantity_fold_nonneg calls inv h0, ?_⟩
  intro k δ
  rw [get_quantity_add, if_pos rfl]

theorem adjust_clamped_nonneg_witness :
    (∀ k, 0 ≤ get_quantity [("a", 1)] k)
    ∧ ((∀ k, 0 ≤ get_quantity
        (([("a", -5), ("b", 3)] : List (String × Int)).foldl
          (fun i c => add_quantity i c.1 c.2) [("a", 1)]) k)
    ∧ ∀ k δ, get_quantity (add_quantity [("a", 1)] k δ) k
        = max 0 (get_quantity [("a", 1)] k + δ)) := by
  have h0 : ∀ k, 0 ≤ get_quantity [("a", 1)] k := by
    intro k
    simp only [get_quantity, dictGet]
    split <;> simp
  exact ⟨h0, adjust_clamped_nonneg [("a", 1)] [("a", -5), ("b", 3)] h0⟩

/-- C7: check_multiple_availability is a pure read that reports one shortage
entry (with id, name, required and the current available quantity) for every
requirement exceeding stock, returns ok exactly when that list is empty, and
is deterministic in the ledger snapshot. -/
theorem check_all_pure_complete (ings : List (String × Ingredient))
    (inv : List (String × Int)) (reqs : List (String × Int)) :
    (check_multiple_availability ings inv reqs).2
      = (reqs.filter (fun p => !check_availability inv p.1 p.2)).map
          (fun p => mkShortage ings inv p.1 p.2)
    ∧ ((check_multiple_availability ings inv reqs).1 = true ↔
        (check_multiple_availability ings inv reqs).2 = [])
    ∧ ∀ p ∈ reqs, get_quantity inv p.1 < p.2 →
        mkShortage ings inv p.1 p.2 ∈ (check_multiple_availability ings inv reqs).2 := by
  refine ⟨check_multiple_availability_snd ings inv reqs, ?_, ?_⟩
  · have h1 : (check_multiple_availability ings inv reqs).1
        = (check_multiple_availability ings inv reqs).2.isEmpty := rfl
    rw [h1, List.isEmpty_iff]
  · intro p hp hlt
    rw [check_multiple_availability_snd]
    refine List.mem_map_of_mem _ (List.mem_filter.mpr ⟨hp, ?_⟩)
    simp [check_availability]
    omega

theorem check_all_pure_complete_witness :
    (check_multiple_availability [] [] [("x", 1)]).2
      = (([("x", 1)] : List (String × Int)).filter
          (fun p => !check_availability [] p.1 p.2)).map
          (fun p => mkShortage [] [] p.1 p.2)
    ∧ ((check_multiple_availability [] [] [("x", 1)]).1 = true ↔
        (check_multiple_availability [] [] [("x", 1)]).2 = [])
    ∧ ∀ p ∈ ([("x", 1)] : List (String × Int)), get_quantity [] p.1 < p.2 →
        mkShortage [] [] p.1 p.2 ∈ (check_multiple_availability [] [] [("x", 1)]).2 :=
  check_all_pure_complete [] [] [("x", 1)]

/-- C9 counterexample: with an empty ingredient catalog, the shortage entry
for the unknown id "ing1" carries the raw id as its name, not "Unknown". -/
theorem unknown_name_counterexample :
    (check_multiple_availability [] [] [("ing1", 1)]).2
      = [{ id := "ing1", name := "ing1", required := 1, available := 0 }]
    ∧ shortage_name [] "ing1" = "ing1"
    ∧ ("ing1" : String) ≠ "Unknown" := by
  refine ⟨by decide, by decide, by decide⟩

/-- C9 amended: operations on a missing ingredient id never fail: the ledger
reports quantity 0, display falls back to the name "Unknown", but shortage
entries fall back to the raw ingredient id as the name. -/
theorem unknown_ingredient_graceful (ings : List (String × Ingredient))
    (inv : List (String × Int)) (ing_id : String) (req : Int)
    (hing : dictGet ings ing_id = none) (hinv : dictGet inv ing_id = none) :
    get_quantity inv ing_id = 0
    ∧ display_name ings ing_id = "Unknown"
    ∧ shortage_name ings ing_id = ing_id
    ∧ mkShortage ings inv ing_id req
        = { id := ing_id, name := ing_id, required := req, available := 0 } := by
  have hq : get_quantity inv ing_id = 0 := by
    simp [get_quantity, hinv]
  refine ⟨hq, ?_, ?_, ?_⟩
  · simp [display_name, hing]
  · simp [shortage_name, hing]
  · simp [mkShortage, shortage_name, hing, hq]

theorem unknown_ingredient_graceful_witness :
    dictGet ([] : List (String × Ingredient)) "ghost" = none
    ∧ dictGet ([] : List (String × Int)) "ghost" = none
    ∧ (get_quantity [] "ghost" = 0
    ∧ display_name [] "ghost" = "Unknown"
    ∧ shortage_name [] "ghost" = "ghost"
    ∧ mkShortage [] [] "ghost" 2
        = { id := "ghost", name := "ghost", required := 2, available := 0 }) :=
  ⟨rfl, rfl, unknown_ingredient_graceful [] [] "ghost" 2 rfl rfl⟩

/-! ## Claims about the simulation engine -/

/-- C2: for every run with a non-empty menu, the produced record counts every
client exactly once (served + could-not-buy + changed-opinion equals the
drawn total) and total_hotdogs_sold equals the sum of the per-item sale
counters. -/
theorem simulate_day_conservation (store : DataStore) (σ : List Nat)
    (date : String) (h : store.hotdogs ≠ []) :
    (simulate_day store σ date).1
        = some (mkSalesDay date (simulate_run store σ).1 (simulate_run store σ).2)
    ∧ (simulate_run store σ).2.clients_served
        + (simulate_run store σ).2.clients_could_not_buy
        + (simulate_run store σ).2.clients_changed_opinion
        = (simulate_run store σ).1
    ∧ (mkSalesDay date (simulate_run store σ).1 (simulate_run store σ).2).total_clients
        = (simulate_run store σ).1
    ∧ (mkSalesDay date (simulate_run store σ).1 (simulate_run store σ).2).total_hotdogs_sold
        = counterSum (simulate_run store σ).2.hotdog_sales_counter := by
  have hne : (store.hotdogs.map Prod.snd).isEmpty = false := by
    cases hh : store.hotdogs with
    | nil => cases h hh
    | cons a l => rfl
  refine ⟨by simp [simulate_day, hne], ?_, rfl, ?_⟩
  · have hdef2 : (simulate_run store σ).2
        = (runClients store.ingredients (store.hotdogs.map Prod.snd)
            (sidesOf store.ingredients) (randint 0 200 σ).1
            { inventory := store.inventory } (randint 0 200 σ).2).1 := rfl
    have hdef1 : (simulate_run store σ).1 = (randint 0 200 σ).1 := rfl
    rw [hdef2, hdef1]
    have hsum := runClients_sum store.ingredients (store.hotdogs.map Prod.snd)
      (sidesOf store.ingredients) (randint 0 200 σ).1
      { inventory := store.inventory } (randint 0 200 σ).2
    simpa using hsum
  · exact runClients_sold store.ingredients (store.hotdogs.map Prod.snd)
      (sidesOf store.ingredients) (randint 0 200 σ).1
      { inventory := store.inventory } (randint 0 200 σ).2 rfl

theorem simulate_day_conservation_witness :
    wStore.hotdogs ≠ []
    ∧ ((simulate_day wStore [] "d").1
        = some (mkSalesDay "d" (simulate_run wStore []).1 (simulate_run wStore []).2)
    ∧ (simulate_run wStore []).2.clients_served
        + (simulate_run wStore []).2.clients_could_not_buy
        + (simulate_run wStore []).2.clients_changed_opinion
        = (simulate_run wStore []).1
    ∧ (mkSalesDay "d" (simulate_run wStore []).1
        (simulate_run wStore []).2).total_clients
        = (simulate_run wStore []).1
    ∧ (mkSalesDay "d" (simulate_run wStore []).1
        (simulate_run wStore []).2).total_hotdogs_sold
        = counterSum (simulate_run wStore []).2.hotdog_sales_counter) :=
  ⟨by decide, simulate_day_conservation wStore [] "d" (by decide)⟩

/-- C4: the fulfilled-order side accounting adds to the running total exactly
(number of order items with a truthy bundled side) plus, for every
Side-category ingredient among the order requirements, its required count
minus the number of order items bundling that exact side id. -/
theorem count_sides_formula (ings : List (String × Ingredient))
    (order : List HotDog) (reqs : List (String × Nat)) (t : Int) :
    count_sides ings order reqs t
      = t + ((order.filter (fun hd => optTruthy hd.acompanante_id)).length : Int)
        + ((reqs.filter (fun p => isSide ings p.1)).map
            (fun p => (p.2 : Int) - (comboSides order p.1 : Int))).sum := by
  have h2 : count_sides ings order reqs t
      = reqs.foldl
          (fun t p => if isSide ings p.1
            then t + ((p.2 : Int) - (comboSides order p.1 : Int)) else t)
          (order.foldl
            (fun t hd => if optTruthy hd.acompanante_id then t + 1 else t) t) := by
    simp only [count_sides]
    refine List.foldl_ext _ _ _ ?_
    intro a p _
    cases hi : dictGet ings p.1 <;> simp [isSide, hi]
  rw [h2, foldl_add_filtered, foldl_count_truthy]

/-- C5: simulate_day appends exactly one record when the menu is non-empty,
and on an empty menu aborts with no record and an unchanged store. -/
theorem simulate_day_record_or_abort (store : DataStore) (σ : List Nat)
    (date : String) :
    (store.hotdogs = [] → simulate_day store σ date = (none, store))
    ∧ (store.hotdogs ≠ [] →
        (simulate_day store σ date).1
          = some (mkSalesDay date (simulate_run store σ).1 (simulate_run store σ).2)
        ∧ (simulate_day store σ date).2.sales_history
            = store.sales_history
              ++ [mkSalesDay date (simulate_run store σ).1
                   (simulate_run store σ).2]) := by
  constructor
  · intro h
    simp [simulate_day, h]
  · intro h
    have hne : (store.hotdogs.map Prod.snd).isEmpty = false := by
      cases hh : store.hotdogs with
      | nil => cases h hh
      | cons a l => rfl
    exact ⟨by simp [simulate_day, hne], by simp [simulate_day, hne]⟩

theorem simulate_day_record_or_abort_witness :
    simulate_day wEmptyStore [] "d" = (none, wEmptyStore)
    ∧ (simulate_day wStore [] "d").2.sales_history
        = wStore.sales_history
          ++ [mkSalesDay "d" (simulate_run wStore []).1 (simulate_run wStore []).2] :=
  ⟨(simulate_day_record_or_abort wEmptyStore [] "d").1 rfl,
   ((simulate_day_record_or_abort wStore [] "d").2 (by decide)).2⟩

/-- C6: the record's best-selling field is the name of the earliest-inserted
counter entry holding the maximal sale count, and the empty string when no
sales occurred. -/
theorem simulate_day_best_seller (store : DataStore) (σ : List Nat)
    (date : String) (h : store.hotdogs ≠ []) :
    (simulate_day store σ date).1
        = some (mkSalesDay date (simulate_run store σ).1 (simulate_run store σ).2)
    ∧ (mkSalesDay date (simulate_run store σ).1
        (simulate_run store σ).2).best_selling_hotdog
        = bestSellerSpec (simulate_run store σ).2.hotdog_sales_counter
    ∧ bestSellerSpec [] = "" := by
  have hne : (store.hotdogs.map Prod.snd).isEmpty = false := by
    cases hh : store.hotdogs with
    | nil => cases h hh
    | cons a l => rfl
  refine ⟨by simp [simulate_day, hne], ?_, rfl⟩
  exact mostCommon1_eq_bestSellerSpec (simulate_run store σ).2.hotdog_sales_counter

theorem simulate_day_best_seller_witness :
    wStore.hotdogs ≠ []
    ∧ ((simulate_day wStore [1, 1, 0, 5] "d").1
        = some (mkSalesDay "d" (simulate_run wStore [1, 1, 0, 5]).1
            (simulate_run wStore [1, 1, 0, 5]).2)
    ∧ (mkSalesDay "d" (simulate_run wStore [1, 1, 0, 5]).1
        (simulate_run wStore [1, 1, 0, 5]).2).best_selling_hotdog
        = bestSellerSpec (simulate_run wStore [1, 1, 0, 5]).2.hotdog_sales_counter
    ∧ bestSellerSpec [] = "") :=
  ⟨by decide, simulate_day_best_seller wStore [1, 1, 0, 5] "d" (by decide)⟩

/-- C8: with the random stream injected, simulate_day is a pure function:
identical starting stores, streams and timestamps yield structurally
identical results (record and updated store). -/
theorem simulate_day_deterministic (s1 s2 : DataStore) (σ1 σ2 : List Nat)
    (d1 d2 : String) (hs : s1 = s2) (hσ : σ1 = σ2) (hd : d1 = d2) :
    simulate_day s1 σ1 d1 = simulate_day s2 σ2 d2 := by
  rw [hs, hσ, hd]

theorem simulate_day_deterministic_witness :
    wStore = wStore ∧ ([1, 2, 3] : List Nat) = [1, 2, 3] ∧ ("d" : String) = "d"
    ∧ simulate_day wStore [1, 2, 3] "d" = simulate_day wStore [1, 2, 3] "d" :=
  ⟨rfl, rfl, rfl,
   simulate_day_deterministic wStore wStore [1, 2, 3] [1, 2, 3] "d" "d" rfl rfl rfl⟩

/-- C10: one simulate_day run never increases any ledger quantity: the only
mutation is consume_ingredients on non-negative requirement counts. -/
theorem simulate_day_inventory_antitone (store : DataStore) (σ : List Nat)
    (date : String) (k : String) :
    get_quantity (simulate_day store σ date).2.inventory k
      ≤ get_quantity store.inventory k := by
  by_cases hM : (store.hotdogs.map Prod.snd).isEmpty = true
  · have hdef : simulate_day store σ date = (none, store) := by
      simp [simulate_day, hM]
    rw [hdef]
  · rw [Bool.not_eq_true] at hM
    have hdef : (simulate_day store σ date).2.inventory
        = (simulate_run store σ).2.inventory := by
      simp [simulate_day, hM]
    rw [hdef]
    exact runClients_inventory_le store.ingredients (store.hotdogs.map Prod.snd)
      (sidesOf store.ingredients) (randint 0 200 σ).1
      { inventory := store.inventory } (randint 0 200 σ).2 k

end HotDogCCS
